import Mathlib

/-!
Verification of the YoutubeGemini pipeline (src/youtube_gemini/app.py).

The program is a single-page app: download a YouTube video, upload it to
the Gemini backend, poll until the uploaded file reaches the ACTIVE state,
request a streamed generation with retry-on-overload, and delete the
transient artifacts. External effects (the video platform, the backend,
the clock) are modelled by oracles; each pipeline function is translated
into a pure Lean function over those oracles, returning its result
together with a trace of the observable events (generation attempts,
retry sleeps, cleanup invocations).
-/

namespace YoutubeGemini

/-- Exception kinds observable at the component boundaries. Python
exceptions are abstracted by constructor: downloadError stands for the
exception raised by the video platform library during fetch,
serviceUnavailable is the raw overload signal
(google.api_core.exceptions.ServiceUnavailable), runtimeError is the
RuntimeError raised at line 158 after retries are exhausted, timeoutError
is the TimeoutError of line 80, otherError wraps any other generation-time
exception unchanged, and noneReturned marks the Python for-loop falling
through (recog_video would implicitly return None). fuelExhausted is an
artifact of the bounded polling loop, proven unreachable. -/
inductive PErr where
  | downloadError (msg : String)
  | uploadError (msg : String)
  | timeoutError (msg : String)
  | serviceUnavailable (msg : String)
  | runtimeError (msg : String)
  | otherError (msg : String)
  | noneReturned
  | fuelExhausted
  deriving Repr, DecidableEq

/-- The uploaded file handle returned by the backend: a name plus the
integer state field compared against 2 (ACTIVE) at line 76. -/
structure UploadedFile where
  name : String
  state : Nat
  deriving Repr, DecidableEq

/-- Oracle for download_youtube: either the platform library resolves the
URL and the stream download writes a file at the given path, or the URL is
unreachable or malformed and the library raises before any file is
written. -/
inductive FetchOutcome where
  | success (filePath : String)
  | unreachable (msg : String)
  deriving Repr, DecidableEq

/-- Oracle outcome of one model.generate_content call together with the
iteration of its streamed responses (lines 140-147): either the full
ordered list of text chunks, or a ServiceUnavailable, or some other
exception. -/
inductive GenOutcome where
  | chunks (cs : List String)
  | unavailable (msg : String)
  | failure (msg : String)
  deriving Repr, DecidableEq

/-- True when the outcome is the raw service-overloaded signal. -/
def isUnavailable : GenOutcome → Bool
  | GenOutcome.unavailable _ => true
  | _ => false

/-- Observable events of one pipeline run. genAttempt records the attempt
number and the state of the uploaded asset passed to generate_content;
retrySleep records a time.sleep of the given seconds at line 154;
deleteAssets records one invocation of delete_file on the local file and
the uploaded asset. -/
inductive Ev where
  | genAttempt (attempt : Nat) (assetState : Nat)
  | retrySleep (seconds : Nat)
  | deleteAssets
  deriving Repr, DecidableEq

/-- Message of the RuntimeError raised at line 158 (translated overload
error). -/
def overloadedMsg : String := "Gemini model is overloaded, try again later"

/-- Message of the TimeoutError raised at line 80. -/
def activationTimeoutMsg : String := "file did not reach ACTIVE state"

/-- Model of download_youtube (lines 35-57): on success returns the file
path and a file has been created on disk; on an unreachable or malformed
URL the library raises before stream.download runs, the handler logs the
failure and re-raises, and no file is created. The Bool records whether a
local file was created. -/
def download_youtube (o : FetchOutcome) : Except PErr String × Bool :=
  match o with
  | FetchOutcome.success p => (Except.ok p, true)
  | FetchOutcome.unreachable m => (Except.error (PErr.downloadError m), false)

/-- The polling loop of wait_for_file_active (lines 75-82). stateAt k is
the state observed after k refetches (stateAt 0 is the state of the handle
as uploaded). At iteration k the elapsed wall-clock time is k * interval
seconds, since each prior iteration slept interval seconds. The loop
checks the state first; inside the body it raises TimeoutError when
elapsed exceeds timeout, else sleeps and refetches. Fuel bounds the
recursion and is proven sufficient for interval at least 1. -/
def waitLoop (stateAt : Nat → Nat) (nm : String) (timeout interval : Nat) :
    Nat → Nat → Except PErr UploadedFile
  | 0, _ => Except.error PErr.fuelExhausted
  | fuel + 1, k =>
    if stateAt k = 2 then
      Except.ok { name := nm, state := stateAt k }
    else if k * interval > timeout then
      Except.error (PErr.timeoutError activationTimeoutMsg)
    else
      waitLoop stateAt nm timeout interval fuel (k + 1)

/-- Model of wait_for_file_active (lines 59-84). -/
def wait_for_file_active (stateAt : Nat → Nat) (nm : String)
    (timeout interval : Nat) : Except PErr UploadedFile :=
  waitLoop stateAt nm timeout interval (timeout + 2) 0

/-- Filesystem and backend view relevant to cleanup: whether the local
file exists and whether the remote asset exists. -/
structure FsState where
  localExists : Bool
  remoteExists : Bool
  deriving Repr, DecidableEq

/-- Fault injection for delete_file: whether os.remove raises and whether
uploaded_file.delete() raises. -/
structure CleanupFaults where
  localRemoveRaises : Bool
  remoteDeleteRaises : Bool
  deriving Repr, DecidableEq

/-- What delete_file did: which deletions were attempted and which of the
attempted ones raised (the exception being caught and logged). -/
structure CleanupReport where
  localAttempted : Bool
  localFailed : Bool
  remoteAttempted : Bool
  remoteFailed : Bool
  deriving Repr, DecidableEq

/-- Model of delete_file (lines 86-105). The local deletion sits in its
own try/except that swallows every exception, and os.remove is only
called when os.path.exists(file_path) holds; the remote deletion sits in
a second, independent try/except. The function is total: its return type
has no error component, mirroring that delete_file never raises. -/
def delete_file (f : CleanupFaults) (s : FsState) : FsState × CleanupReport :=
  let step1 : FsState × Bool × Bool :=
    if s.localExists then
      if f.localRemoveRaises then (s, true, true)
      else ({ s with localExists := false }, true, false)
    else (s, false, false)
  let s1 := step1.fst
  let step2 : FsState × Bool × Bool :=
    if f.remoteDeleteRaises then (s1, true, true)
    else ({ s1 with remoteExists := false }, true, false)
  (step2.fst,
   { localAttempted := step1.snd.fst, localFailed := step1.snd.snd,
     remoteAttempted := step2.snd.fst, remoteFailed := step2.snd.snd })

/-- The retry loop of recog_video (lines 137-162): for attempt in
range(1, max_retries + 1). On a successful generate_content call the
streamed chunks are folded left onto the empty string (answer = "";
answer += response.text) and returned. On ServiceUnavailable: if attempt
is below max_retries the loop sleeps retry_delay seconds and retries,
otherwise it deletes both assets and raises the translated RuntimeError.
On any other exception it deletes both assets and re-raises the original
error unchanged. Fuel is the number of remaining loop iterations; fuel
running out models the Python for-loop falling through (returning None),
which cannot happen when the loop starts with fuel max_retries at
attempt 1 and max_retries is at least 1. -/
def recogLoop (gen : Nat → GenOutcome) (assetState maxRetries retryDelay : Nat) :
    Nat → Nat → Except PErr String × List Ev
  | 0, _ => (Except.error PErr.noneReturned, [])
  | fuel + 1, attempt =>
    match gen attempt with
    | GenOutcome.chunks cs =>
        (Except.ok (cs.foldl (fun acc c => acc ++ c) ""),
         [Ev.genAttempt attempt assetState])
    | GenOutcome.unavailable _ =>
        if attempt < maxRetries then
          let r := recogLoop gen assetState maxRetries retryDelay fuel (attempt + 1)
          (r.fst, Ev.genAttempt attempt assetState :: Ev.retrySleep retryDelay :: r.snd)
        else
          (Except.error (PErr.runtimeError overloadedMsg),
           [Ev.genAttempt attempt assetState, Ev.deleteAssets])
    | GenOutcome.failure m =>
        (Except.error (PErr.otherError m),
         [Ev.genAttempt attempt assetState, Ev.deleteAssets])

/-- Oracle for one full pipeline run: the fetch outcome, the upload
outcome (name of the uploaded handle, or the exception the upload call
raises), the asset state observed at each poll, and the outcome of each
generation attempt. -/
structure Oracle where
  fetch : FetchOutcome
  upload : Except PErr String
  stateAt : Nat → Nat
  gen : Nat → GenOutcome

/-- Model of recog_video (lines 107-162): download, upload, wait for
ACTIVE (timeout 300, interval 1, the defaults used at line 134), then the
retry loop starting at attempt 1. Failures of the first three stages
propagate immediately with an empty event trace (no generation attempt,
no sleep, no cleanup happens inside those stages). -/
def recog_video (o : Oracle) (maxRetries retryDelay : Nat) :
    Except PErr (String × UploadedFile × String) × List Ev :=
  match download_youtube o.fetch with
  | (Except.error e, _) => (Except.error e, [])
  | (Except.ok filePath, _) =>
    match o.upload with
    | Except.error e => (Except.error e, [])
    | Except.ok nm =>
      match wait_for_file_active o.stateAt nm 300 1 with
      | Except.error e => (Except.error e, [])
      | Except.ok uf =>
        let r := recogLoop o.gen uf.state maxRetries retryDelay maxRetries 1
        match r.fst with
        | Except.ok ans => (Except.ok (filePath, uf, ans), r.snd)
        | Except.error e => (Except.error e, r.snd)

/-- Events of the button handler (lines 215-269): the try block runs
recog_video; the finally block calls delete_file(file_path,
uploaded_file) inside an inner try/except. The names file_path and
uploaded_file are bound by the tuple assignment at line 220 only when
recog_video returns; when recog_video raises, evaluating the arguments in
the finally block raises NameError, which the inner except swallows, so
delete_file is not invoked there. -/
def handlerEvents (o : Oracle) (maxRetries retryDelay : Nat) : List Ev :=
  let r := recog_video o maxRetries retryDelay
  match r.fst with
  | Except.ok _ => r.snd ++ [Ev.deleteAssets]
  | Except.error _ => r.snd

/-- Number of delete_file invocations in one handler run. -/
def deleteCount (evs : List Ev) : Nat := evs.count Ev.deleteAssets

/-- Number of delete_file invocations across one button-handler run. -/
def handlerCleanupCount (o : Oracle) (maxRetries retryDelay : Nat) : Nat :=
  deleteCount (handlerEvents o maxRetries retryDelay)

/-- True when the run gets past download, upload and activation, i.e.
reaches the generation loop. -/
def reachesInference (o : Oracle) : Bool :=
  match (download_youtube o.fetch).fst with
  | Except.error _ => false
  | Except.ok _ =>
    match o.upload with
    | Except.error _ => false
    | Except.ok nm =>
      match wait_for_file_active o.stateAt nm 300 1 with
      | Except.error _ => false
      | Except.ok _ => true

/-- True for a generation-attempt event. -/
def isGenAttempt : Ev → Bool
  | Ev.genAttempt _ _ => true
  | _ => false

/-- True for a retry-sleep event. -/
def isRetrySleep : Ev → Bool
  | Ev.retrySleep _ => true
  | _ => false

/-- Number of generation attempts in a trace. -/
def attemptCount (evs : List Ev) : Nat := evs.countP isGenAttempt

/-- Number of retry sleeps in a trace. -/
def sleepCount (evs : List Ev) : Nat := evs.countP isRetrySleep

/-- True when every deleteAssets event in the trace is the final event:
no attempt, sleep or further deletion follows a cleanup. -/
def deleteOnlyTerminal : List Ev → Bool
  | [] => true
  | Ev.deleteAssets :: rest => rest.isEmpty
  | _ :: rest => deleteOnlyTerminal rest

/-- Default model name used at line 216 when GENAI_MODEL_NAME is unset. -/
def defaultModelName : String := "gemini-2.0-flash"

/-- Model of lines 26-30: the credential is read from GENAI_API_KEY; a
missing (or empty, since Python "if not API_KEY" treats the empty string
as missing) value shows an error and halts the script via st.stop before
any handler can run. Returns the key the app proceeds with, or none when
the app halts. -/
def startupApiKey (env : String → Option String) : Option String :=
  match env "GENAI_API_KEY" with
  | none => none
  | some k => if k = "" then none else some k

/-- Model of line 216: os.getenv("GENAI_MODEL_NAME", "gemini-2.0-flash"). -/
def modelNameOf (env : String → Option String) : String :=
  (env "GENAI_MODEL_NAME").getD defaultModelName

/-- One whole app run: when startup halts, no pipeline code runs and no
handler events exist; otherwise the handler runs. -/
def runApp (env : String → Option String) (o : Oracle)
    (maxRetries retryDelay : Nat) : Option (List Ev) :=
  match startupApiKey env with
  | none => none
  | some _ => some (handlerEvents o maxRetries retryDelay)

/-- A run in which every stage succeeds at once: first poll already
ACTIVE, first attempt streams one chunk. -/
def okOracle : Oracle :=
  { fetch := FetchOutcome.success "videos/a.mp4"
    upload := Except.ok "files/x"
    stateAt := fun _ => 2
    gen := fun _ => GenOutcome.chunks ["ok"] }

/-- A run whose download stage fails (unreachable or malformed URL). -/
def badUrlOracle : Oracle :=
  { fetch := FetchOutcome.unreachable "regex matching failed"
    upload := Except.ok "files/x"
    stateAt := fun _ => 2
    gen := fun _ => GenOutcome.chunks ["ok"] }

/-! Helper lemmas about the retry loop. -/

/-- When every attempt is overloaded, running the loop with fuel matching
the remaining iterations ends in the translated RuntimeError, with one
generation attempt per fuel unit, one fewer sleeps, and one cleanup. -/
theorem recogLoop_all_unavailable (gen : Nat → GenOutcome) (st maxR delay : Nat)
    (hall : ∀ a, isUnavailable (gen a) = true) :
    ∀ fuel attempt, 1 ≤ fuel → attempt + fuel = maxR + 1 →
      (recogLoop gen st maxR delay fuel attempt).fst
          = Except.error (PErr.runtimeError overloadedMsg) ∧
      attemptCount (recogLoop gen st maxR delay fuel attempt).snd = fuel ∧
      sleepCount (recogLoop gen st maxR delay fuel attempt).snd = fuel - 1 ∧
      deleteCount (recogLoop gen st maxR delay fuel attempt).snd = 1 := by
  intro fuel
  induction fuel with
  | zero => intro attempt h1 _; omega
  | succ f ih =>
    intro attempt _ h2
    have hg := hall attempt
    cases hgen : gen attempt with
    | chunks cs => rw [hgen] at hg; simp [isUnavailable] at hg
    | failure m => rw [hgen] at hg; simp [isUnavailable] at hg
    | unavailable m =>
      by_cases hlt : attempt < maxR
      · have hf : 1 ≤ f := by omega
        obtain ⟨r1, r2, r3, r4⟩ := ih (attempt + 1) hf (by omega)
        refine ⟨?_, ?_, ?_, ?_⟩
        · simpa [recogLoop, hgen, hlt] using r1
        · simp only [attemptCount] at r2
          simp only [recogLoop, hgen, hlt, if_true, attemptCount,
            List.countP_cons, isGenAttempt]
          simp
          omega
        · simp only [sleepCount] at r3
          simp only [recogLoop, hgen, hlt, if_true, sleepCount,
            List.countP_cons, isRetrySleep]
          simp
          omega
        · simp only [deleteCount] at r4
          simp only [recogLoop, hgen, hlt, if_true, deleteCount,
            List.count_cons]
          simp
          omega
      · have : attempt = maxR := by omega
        refine ⟨?_, ?_, ?_, ?_⟩ <;>
          simp [recogLoop, hgen, hlt, attemptCount, sleepCount, deleteCount,
            List.countP_cons, List.count_cons, isGenAttempt, isRetrySleep] <;>
          omega

/-- When attempts before K are overloaded and attempt K streams chunks cs,
the loop returns the left fold of cs after K - attempt + 1 attempts,
K - attempt sleeps and no cleanup. -/
theorem recogLoop_success_at (gen : Nat → GenOutcome) (st maxR delay K : Nat)
    (cs : List String) (hK : gen K = GenOutcome.chunks cs) (hKm : K ≤ maxR) :
    ∀ fuel attempt, attempt ≤ K → K + 1 ≤ attempt + fuel →
      (∀ j, attempt ≤ j → j < K → isUnavailable (gen j) = true) →
      (recogLoop gen st maxR delay fuel attempt).fst
          = Except.ok (cs.foldl (fun acc c => acc ++ c) "") ∧
      attemptCount (recogLoop gen st maxR delay fuel attempt).snd = K + 1 - attempt ∧
      sleepCount (recogLoop gen st maxR delay fuel attempt).snd = K - attempt ∧
      deleteCount (recogLoop gen st maxR delay fuel attempt).snd = 0 := by
  intro fuel
  induction fuel with
  | zero => intro attempt h1 h2 _; omega
  | succ f ih =>
    intro attempt h1 h2 hpre
    rcases Nat.lt_or_ge attempt K with hlt | hge
    · have hg := hpre attempt (Nat.le_refl _) hlt
      cases hgen : gen attempt with
      | chunks cs2 => rw [hgen] at hg; simp [isUnavailable] at hg
      | failure m => rw [hgen] at hg; simp [isUnavailable] at hg
      | unavailable m =>
        have hltm : attempt < maxR := by omega
        obtain ⟨r1, r2, r3, r4⟩ := ih (attempt + 1) (by omega) (by omega)
          (fun j hj1 hj2 => hpre j (by omega) hj2)
        refine ⟨?_, ?_, ?_, ?_⟩
        · simpa [recogLoop, hgen, hltm] using r1
        · simp only [attemptCount] at r2
          simp only [recogLoop, hgen, hltm, if_true, attemptCount,
            List.countP_cons, isGenAttempt]
          simp
          omega
        · simp only [sleepCount] at r3
          simp only [recogLoop, hgen, hltm, if_true, sleepCount,
            List.countP_cons, isRetrySleep]
          simp
          omega
        · simp only [deleteCount] at r4
          simp only [recogLoop, hgen, hltm, if_true, deleteCount,
            List.count_cons]
          simp
          omega
    · have hak : attempt = K := by omega
      subst hak
      refine ⟨?_, ?_, ?_, ?_⟩ <;>
        simp [recogLoop, hK, attemptCount, sleepCount, deleteCount,
          List.countP_cons, List.count_cons, isGenAttempt, isRetrySleep]

/-- When attempts before K are overloaded and attempt K fails with an
error other than the overload signal, the loop deletes the assets and
re-raises that error unchanged after K - attempt + 1 attempts and
K - attempt sleeps. -/
theorem recogLoop_failure_at (gen : Nat → GenOutcome) (st maxR delay K : Nat)
    (m : String) (hK : gen K = GenOutcome.failure m) (hKm : K ≤ maxR) :
    ∀ fuel attempt, attempt ≤ K → K + 1 ≤ attempt + fuel →
      (∀ j, attempt ≤ j → j < K → isUnavailable (gen j) = true) →
      (recogLoop gen st maxR delay fuel attempt).fst
          = Except.error (PErr.otherError m) ∧
      attemptCount (recogLoop gen st maxR delay fuel attempt).snd = K + 1 - attempt ∧
      sleepCount (recogLoop gen st maxR delay fuel attempt).snd = K - attempt ∧
      deleteCount (recogLoop gen st maxR delay fuel attempt).snd = 1 := by
  intro fuel
  induction fuel with
  | zero => intro attempt h1 h2 _; omega
  | succ f ih =>
    intro attempt h1 h2 hpre
    rcases Nat.lt_or_ge attempt K with hlt | hge
    · have hg := hpre attempt (Nat.le_refl _) hlt
      cases hgen : gen attempt with
      | chunks cs2 => rw [hgen] at hg; simp [isUnavailable] at hg
      | failure m2 => rw [hgen] at hg; simp [isUnavailable] at hg
      | unavailable m2 =>
        have hltm : attempt < maxR := by omega
        obtain ⟨r1, r2, r3, r4⟩ := ih (attempt + 1) (by omega) (by omega)
          (fun j hj1 hj2 => hpre j (by omega) hj2)
        refine ⟨?_, ?_, ?_, ?_⟩
        · simpa [recogLoop, hgen, hltm] using r1
        · simp only [attemptCount] at r2
          simp only [recogLoop, hgen, hltm, if_true, attemptCount,
            List.countP_cons, isGenAttempt]
          simp
          omega
        · simp only [sleepCount] at r3
          simp only [recogLoop, hgen, hltm, if_true, sleepCount,
            List.countP_cons, isRetrySleep]
          simp
          omega
        · simp only [deleteCount] at r4
          simp only [recogLoop, hgen, hltm, if_true, deleteCount,
            List.count_cons]
          simp
          omega
    · have hak : attempt = K := by omega
      subst hak
      refine ⟨?_, ?_, ?_, ?_⟩ <;>
        simp [recogLoop, hK, attemptCount, sleepCount, deleteCount,
          List.countP_cons, List.count_cons, isGenAttempt, isRetrySleep]

/-- Every retry sleep in the loop trace sleeps exactly the configured
retry delay. -/
theorem recogLoop_sleep_delay (gen : Nat → GenOutcome) (st maxR delay : Nat) :
    ∀ fuel attempt s,
      Ev.retrySleep s ∈ (recogLoop gen st maxR delay fuel attempt).snd →
      s = delay := by
  intro fuel
  induction fuel with
  | zero => intro attempt s h; simp [recogLoop] at h
  | succ f ih =>
    intro attempt s h
    cases hgen : gen attempt with
    | chunks cs => simp [recogLoop, hgen] at h
    | failure m => simp [recogLoop, hgen] at h
    | unavailable m =>
      by_cases hlt : attempt < maxR
      · simp only [recogLoop, hgen, hlt, if_true, List.mem_cons] at h
        rcases h with h | h | h
        · simp at h
        · simpa using h
        · exact ih (attempt + 1) s h
      · simp [recogLoop, hgen, hlt] at h

/-- Every generation-attempt event in the loop trace carries the asset
state the loop was entered with. -/
theorem recogLoop_attempt_state (gen : Nat → GenOutcome) (st maxR delay : Nat) :
    ∀ fuel attempt k s,
      Ev.genAttempt k s ∈ (recogLoop gen st maxR delay fuel attempt).snd →
      s = st := by
  intro fuel
  induction fuel with
  | zero => intro attempt k s h; simp [recogLoop] at h
  | succ f ih =>
    intro attempt k s h
    cases hgen : gen attempt with
    | chunks cs =>
      simp [recogLoop, hgen] at h
      exact h.2
    | failure m =>
      simp [recogLoop, hgen] at h
      exact h.2
    | unavailable m =>
      by_cases hlt : attempt < maxR
      · simp only [recogLoop, hgen, hlt, if_true, List.mem_cons] at h
        rcases h with h | h | h
        · exact (Ev.genAttempt.injEq _ _ _ _ ▸ h).2
        · simp at h
        · exact ih (attempt + 1) k s h
      · simp [recogLoop, hgen, hlt] at h
        exact h.2

/-- Inside the loop, a cleanup event can only be the last event of the
trace, and a successful loop performs no cleanup at all. -/
theorem recogLoop_delete_terminal (gen : Nat → GenOutcome) (st maxR delay : Nat) :
    ∀ fuel attempt,
      deleteOnlyTerminal (recogLoop gen st maxR delay fuel attempt).snd = true ∧
      (∀ a, (recogLoop gen st maxR delay fuel attempt).fst = Except.ok a →
        deleteCount (recogLoop gen st maxR delay fuel attempt).snd = 0) := by
  intro fuel
  induction fuel with
  | zero => intro attempt; simp [recogLoop, deleteOnlyTerminal, deleteCount]
  | succ f ih =>
    intro attempt
    cases hgen : gen attempt with
    | chunks cs =>
      simp [recogLoop, hgen, deleteOnlyTerminal, deleteCount, List.count_cons]
    | failure m =>
      simp [recogLoop, hgen, deleteOnlyTerminal, List.isEmpty]
    | unavailable m =>
      by_cases hlt : attempt < maxR
      · obtain ⟨t1, t2⟩ := ih (attempt + 1)
        constructor
        · simpa [recogLoop, hgen, hlt, deleteOnlyTerminal] using t1
        · intro a ha
          simp only [recogLoop, hgen, hlt, if_true] at ha
          have h0 := t2 a ha
          simp only [deleteCount] at h0 ⊢
          simp [recogLoop, hgen, hlt, List.count_cons, h0]
      · simp [recogLoop, hgen, hlt, deleteOnlyTerminal, List.isEmpty]

/-- With fuel matching the remaining iterations, the loop performs exactly
one cleanup when it fails and none when it succeeds. -/
theorem recogLoop_deleteCount_result (gen : Nat → GenOutcome) (st maxR delay : Nat) :
    ∀ fuel attempt, 1 ≤ fuel → attempt + fuel = maxR + 1 →
      deleteCount (recogLoop gen st maxR delay fuel attempt).snd
        = (match (recogLoop gen st maxR delay fuel attempt).fst with
           | Except.ok _ => 0
           | Except.error _ => 1) := by
  intro fuel
  induction fuel with
  | zero => intro attempt h1 _; omega
  | succ f ih =>
    intro attempt _ h2
    cases hgen : gen attempt with
    | chunks cs =>
      simp [recogLoop, hgen, deleteCount, List.count_cons]
    | failure m =>
      simp [recogLoop, hgen, deleteCount, List.count_cons]
    | unavailable m =>
      by_cases hlt : attempt < maxR
      · have hf : 1 ≤ f := by omega
        have h0 := ih (attempt + 1) hf (by omega)
        simp only [deleteCount] at h0 ⊢
        simp only [recogLoop, hgen, hlt, if_true]
        cases hr : (recogLoop gen st maxR delay f (attempt + 1)).fst with
        | ok a =>
          rw [hr] at h0
          simp [hr, List.count_cons, h0]
        | error e =>
          rw [hr] at h0
          simp [hr, List.count_cons, h0]
      · simp [recogLoop, hgen, hlt, deleteCount, List.count_cons]

/-! Helper lemmas about the activation polling loop. -/

/-- If the asset is ACTIVE at poll K, every earlier poll is not ACTIVE and
stays within the time budget, then the loop returns the handle in state 2,
for any fuel covering the remaining polls. -/
theorem waitLoop_reaches_active (stateAt : Nat → Nat) (nm : String)
    (timeout interval K : Nat) (hK : stateAt K = 2)
    (hbefore : ∀ j, j < K → stateAt j ≠ 2)
    (htime : ∀ j, j < K → j * interval ≤ timeout) :
    ∀ fuel j, j ≤ K → K + 1 ≤ j + fuel →
      waitLoop stateAt nm timeout interval fuel j
        = Except.ok { name := nm, state := 2 } := by
  intro fuel
  induction fuel with
  | zero => intro j h1 h2; omega
  | succ f ih =>
    intro j h1 h2
    rcases Nat.lt_or_ge j K with hlt | hge
    · have hne := hbefore j hlt
      have hle := htime j hlt
      have hnot : ¬ j * interval > timeout := by omega
      rw [waitLoop, if_neg hne, if_neg hnot]
      exact ih (j + 1) (by omega) (by omega)
    · have hjK : j = K := by omega
      subst hjK
      rw [waitLoop]
      simp [hK]

/-- If the asset never reaches state 2, the loop fails with the
TimeoutError, for any starting poll within the time budget and fuel
covering it, provided the poll interval is at least one second. -/
theorem waitLoop_times_out (stateAt : Nat → Nat) (nm : String)
    (timeout interval : Nat) (hnever : ∀ j, stateAt j ≠ 2)
    (hint : 1 ≤ interval) :
    ∀ fuel j, 1 ≤ fuel → timeout + 2 ≤ j + fuel →
      waitLoop stateAt nm timeout interval fuel j
        = Except.error (PErr.timeoutError activationTimeoutMsg) := by
  intro fuel
  induction fuel with
  | zero => intro j h1 _; omega
  | succ f ih =>
    intro j _ h2
    have hne := hnever j
    by_cases hover : j * interval > timeout
    · rw [waitLoop]
      rw [if_neg hne, if_pos hover]
    · have hjbound : j ≤ j * interval := Nat.le_mul_of_pos_right j (by omega)
      have hjle : j ≤ timeout := by omega
      have hf : 1 ≤ f := by omega
      rw [waitLoop]
      rw [if_neg hne, if_neg hover]
      exact ih (j + 1) hf (by omega)

/-- A handle returned by the polling loop is in state 2. -/
theorem waitLoop_ok_state (stateAt : Nat → Nat) (nm : String)
    (timeout interval : Nat) :
    ∀ fuel j uf, waitLoop stateAt nm timeout interval fuel j = Except.ok uf →
      uf.state = 2 := by
  intro fuel
  induction fuel with
  | zero => intro j uf h; simp [waitLoop] at h
  | succ f ih =>
    intro j uf h
    rw [waitLoop] at h
    by_cases h2 : stateAt j = 2
    · rw [if_pos h2] at h
      cases h
      simpa using h2
    · rw [if_neg h2] at h
      by_cases hover : j * interval > timeout
      · rw [if_pos hover] at h
        cases h
      · rw [if_neg hover] at h
        exact ih (j + 1) uf h

/-- Folding string append from the empty string is ordered concatenation. -/
theorem foldl_append_eq_join (cs : List String) :
    cs.foldl (fun acc c => acc ++ c) "" = String.join cs := rfl

/-- C2: if every attempt is overloaded, the loop performs exactly
maxRetries attempts with maxRetries - 1 sleeps of exactly retryDelay
seconds each, deletes both assets once, and fails with the translated
RuntimeError, which is distinct from the raw ServiceUnavailable signal;
if the Kth attempt (K below maxRetries) succeeds, the loop returns after
exactly K attempts and K - 1 sleeps, with no further sleeps. -/
theorem retry_exhaustion_and_success (gen : Nat → GenOutcome)
    (st maxR delay : Nat) (hmax : 1 ≤ maxR) :
    ((∀ a, isUnavailable (gen a) = true) →
      (recogLoop gen st maxR delay maxR 1).fst
          = Except.error (PErr.runtimeError overloadedMsg) ∧
      attemptCount (recogLoop gen st maxR delay maxR 1).snd = maxR ∧
      sleepCount (recogLoop gen st maxR delay maxR 1).snd = maxR - 1 ∧
      deleteCount (recogLoop gen st maxR delay maxR 1).snd = 1 ∧
      (∀ s, Ev.retrySleep s ∈ (recogLoop gen st maxR delay maxR 1).snd → s = delay) ∧
      (∀ m, PErr.runtimeError overloadedMsg ≠ PErr.serviceUnavailable m)) ∧
    (∀ K cs, 1 ≤ K → K < maxR →
      (∀ j, 1 ≤ j → j < K → isUnavailable (gen j) = true) →
      gen K = GenOutcome.chunks cs →
      (recogLoop gen st maxR delay maxR 1).fst
          = Except.ok (cs.foldl (fun acc c => acc ++ c) "") ∧
      attemptCount (recogLoop gen st maxR delay maxR 1).snd = K ∧
      sleepCount (recogLoop gen st maxR delay maxR 1).snd = K - 1) := by
  constructor
  · intro hall
    obtain ⟨r1, r2, r3, r4⟩ :=
      recogLoop_all_unavailable gen st maxR delay hall maxR 1 hmax (by omega)
    exact ⟨r1, r2, r3, r4,
      fun s hs => recogLoop_sleep_delay gen st maxR delay maxR 1 s hs,
      fun m h => PErr.noConfusion h⟩
  · intro K cs hK1 hKm hpre hg
    obtain ⟨r1, r2, r3, _⟩ :=
      recogLoop_success_at gen st maxR delay K cs hg (by omega) maxR 1 hK1
        (by omega) (fun j hj1 hj2 => hpre j hj1 hj2)
    exact ⟨r1, by simpa using r2, r3⟩

/-- C4: a generation-time failure other than the overload signal, reached
after any number of overloaded attempts, triggers no retry: the loop
deletes both assets once and re-raises the original error unchanged, with
no sleep after the failing attempt. -/
theorem non_overload_failure_no_retry (gen : Nat → GenOutcome)
    (st maxR delay K : Nat) (m : String) (hK1 : 1 ≤ K) (hKm : K ≤ maxR)
    (hpre : ∀ j, 1 ≤ j → j < K → isUnavailable (gen j) = true)
    (hg : gen K = GenOutcome.failure m) :
    (recogLoop gen st maxR delay maxR 1).fst
        = Except.error (PErr.otherError m) ∧
    attemptCount (recogLoop gen st maxR delay maxR 1).snd = K ∧
    sleepCount (recogLoop gen st maxR delay maxR 1).snd = K - 1 ∧
    deleteCount (recogLoop gen st maxR delay maxR 1).snd = 1 := by
  obtain ⟨r1, r2, r3, r4⟩ :=
    recogLoop_failure_at gen st maxR delay K m hg hKm maxR 1 hK1 (by omega)
      (fun j hj1 hj2 => hpre j hj1 hj2)
  exact ⟨r1, by simpa using r2, r3, r4⟩

/-- C6: a successful generation returns the streamed fragments
concatenated in arrival order with no reordering, deduplication or
separator; in particular the chunk sequence Hello-comma-space, world,
exclamation aggregates to exactly the string Hello, world!. -/
theorem streamed_concat_order (gen : Nat → GenOutcome) (st maxR delay K : Nat)
    (cs : List String) (hK1 : 1 ≤ K) (hKm : K ≤ maxR)
    (hpre : ∀ j, 1 ≤ j → j < K → isUnavailable (gen j) = true)
    (hg : gen K = GenOutcome.chunks cs) :
    (recogLoop gen st maxR delay maxR 1).fst = Except.ok (String.join cs) ∧
    (recogLoop (fun _ => GenOutcome.chunks ["Hello, ", "world", "!"])
        st maxR delay maxR 1).fst = Except.ok "Hello, world!" := by
  constructor
  · have h1 := (recogLoop_success_at gen st maxR delay K cs hg hKm maxR 1 hK1
      (by omega) (fun j hj1 hj2 => hpre j hj1 hj2)).1
    rw [h1, foldl_append_eq_join]
  · have h2 := (recogLoop_success_at
      (fun _ => GenOutcome.chunks ["Hello, ", "world", "!"]) st maxR delay 1
      ["Hello, ", "world", "!"] rfl (by omega) maxR 1 (by omega) (by omega)
      (fun j hj1 hj2 => absurd hj2 (by omega))).1
    rw [h2]
    rfl

/-- C7: for an unreachable or malformed source URL the fetch stage fails
with the download-stage error and creates no local file. -/
theorem download_failure_no_file (m : String) :
    download_youtube (FetchOutcome.unreachable m)
      = (Except.error (PErr.downloadError m), false) := rfl

/-- C3: when the asset reaches state 2 (ACTIVE) at some poll before the
timeout elapses, wait_for_file_active returns the handle in state ACTIVE;
when it never reaches ACTIVE it fails with the TimeoutError once elapsed
time exceeds the timeout; the FAILED state (value 10) is not specially
detected: polling simply continues until the timeout. -/
theorem activation_polling_spec (stateAt : Nat → Nat) (nm : String)
    (timeout interval K : Nat) (hint : 1 ≤ interval) :
    ((stateAt K = 2 ∧ (∀ j, j < K → stateAt j ≠ 2) ∧
      (∀ j, j < K → j * interval ≤ timeout)) →
      wait_for_file_active stateAt nm timeout interval
        = Except.ok { name := nm, state := 2 }) ∧
    ((∀ j, stateAt j ≠ 2) →
      wait_for_file_active stateAt nm timeout interval
        = Except.error (PErr.timeoutError activationTimeoutMsg)) ∧
    ((∀ j, stateAt j = 10) →
      wait_for_file_active stateAt nm timeout interval
        = Except.error (PErr.timeoutError activationTimeoutMsg)) := by
  refine ⟨?_, ?_, ?_⟩
  · rintro ⟨hK, hbefore, htime⟩
    have hKbound : K + 1 ≤ timeout + 2 := by
      rcases Nat.eq_zero_or_pos K with h0 | hpos
      · omega
      · have ht := htime (K - 1) (by omega)
        have hmul : K - 1 ≤ (K - 1) * interval :=
          Nat.le_mul_of_pos_right _ (by omega)
        omega
    exact waitLoop_reaches_active stateAt nm timeout interval K hK hbefore htime
      (timeout + 2) 0 (by omega) (by omega)
  · intro hnever
    exact waitLoop_times_out stateAt nm timeout interval hnever hint
      (timeout + 2) 0 (by omega) (by omega)
  · intro h10
    exact waitLoop_times_out stateAt nm timeout interval
      (fun j => by rw [h10 j]; omega) hint (timeout + 2) 0 (by omega) (by omega)

/-- C8: within a pipeline run, a generation request is only ever issued
against an asset observed in state 2 (ACTIVE): every generation-attempt
event in the trace of recog_video carries asset state 2. -/
theorem inference_only_when_active (o : Oracle) (maxR delay k s : Nat)
    (h : Ev.genAttempt k s ∈ (recog_video o maxR delay).snd) : s = 2 := by
  cases hf : o.fetch with
  | unreachable m => simp [recog_video, download_youtube, hf] at h
  | success p =>
    cases hu : o.upload with
    | error e => simp [recog_video, download_youtube, hf, hu] at h
    | ok nm =>
      cases hw : wait_for_file_active o.stateAt nm 300 1 with
      | error e => simp [recog_video, download_youtube, hf, hu, hw] at h
      | ok uf =>
        have hst : uf.state = 2 :=
          waitLoop_ok_state o.stateAt nm 300 1 302 0 uf hw
        have hmem : Ev.genAttempt k s
            ∈ (recogLoop o.gen uf.state maxR delay maxR 1).snd := by
          simp only [recog_video, download_youtube, hf, hu, hw] at h
          cases hr : (recogLoop o.gen uf.state maxR delay maxR 1).fst with
          | ok a => simpa [hr] using h
          | error e => simpa [hr] using h
        have := recogLoop_attempt_state o.gen uf.state maxR delay maxR 1 k s hmem
        omega

/-- C10: asset deletion inside recog_video happens only on the terminal
failure paths, never between retried attempts: any cleanup event is the
final event of the trace, and a successful run performs no cleanup inside
the loop at all. -/
theorem no_delete_between_attempts (o : Oracle) (maxR delay : Nat) :
    deleteOnlyTerminal (recog_video o maxR delay).snd = true ∧
    (∀ v, (recog_video o maxR delay).fst = Except.ok v →
      deleteCount (recog_video o maxR delay).snd = 0) := by
  cases hf : o.fetch with
  | unreachable m =>
    simp [recog_video, download_youtube, hf, deleteOnlyTerminal, deleteCount]
  | success p =>
    cases hu : o.upload with
    | error e =>
      simp [recog_video, download_youtube, hf, hu, deleteOnlyTerminal, deleteCount]
    | ok nm =>
      cases hw : wait_for_file_active o.stateAt nm 300 1 with
      | error e =>
        simp [recog_video, download_youtube, hf, hu, hw, deleteOnlyTerminal,
          deleteCount]
      | ok uf =>
        obtain ⟨t1, t2⟩ := recogLoop_delete_terminal o.gen uf.state maxR delay maxR 1
        cases hr : (recogLoop o.gen uf.state maxR delay maxR 1).fst with
        | ok a =>
          constructor
          · simpa [recog_video, download_youtube, hf, hu, hw, hr] using t1
          · intro v _
            have h0 := t2 a hr
            simpa [recog_video, download_youtube, hf, hu, hw, hr, deleteCount]
              using h0
        | error e =>
          constructor
          · simpa [recog_video, download_youtube, hf, hu, hw, hr] using t1
          · intro v hv
            simp [recog_video, download_youtube, hf, hu, hw, hr] at hv

/-- C1 counterexample: on a run whose download fails, delete_file is
invoked zero times, not once: the finally block of the handler evaluates
the unbound names file_path and uploaded_file, raising a NameError that
its inner except swallows before delete_file can be called. -/
theorem cleanup_not_invoked_on_download_failure :
    handlerCleanupCount badUrlOracle 5 10 = 0 ∧
    handlerCleanupCount badUrlOracle 5 10 ≠ 1 := by
  constructor
  · rfl
  · intro h
    simp [handlerCleanupCount, handlerEvents, recog_video, download_youtube,
      badUrlOracle, deleteCount] at h

/-- C1 amended: cleanup is invoked exactly once per run if and only if
the pipeline reaches the inference stage (download, upload and activation
all succeeded) — via the outer finally on success, or inside recog_video
on an inference failure — and zero times when download, upload or
activation fails, because the outer finally aborts on unbound names. -/
theorem cleanup_once_iff_inference_reached (o : Oracle) (maxR delay : Nat)
    (hmax : 1 ≤ maxR) :
    handlerCleanupCount o maxR delay
      = if reachesInference o then 1 else 0 := by
  cases hf : o.fetch with
  | unreachable m =>
    simp [handlerCleanupCount, handlerEvents, recog_video, reachesInference,
      download_youtube, hf, deleteCount]
  | success p =>
    cases hu : o.upload with
    | error e =>
      simp [handlerCleanupCount, handlerEvents, recog_video, reachesInference,
        download_youtube, hf, hu, deleteCount]
    | ok nm =>
      cases hw : wait_for_file_active o.stateAt nm 300 1 with
      | error e =>
        simp [handlerCleanupCount, handlerEvents, recog_video, reachesInference,
          download_youtube, hf, hu, hw, deleteCount]
      | ok uf =>
        have hd := recogLoop_deleteCount_result o.gen uf.state maxR delay maxR 1
          hmax (by omega)
        cases hr : (recogLoop o.gen uf.state maxR delay maxR 1).fst with
        | ok a =>
          rw [hr] at hd
          simp only [deleteCount] at hd
          simp [handlerCleanupCount, handlerEvents, recog_video, reachesInference,
            download_youtube, hf, hu, hw, hr, deleteCount, List.count_append,
            List.count_cons, List.count_nil, hd]
        | error e =>
          rw [hr] at hd
          simp only [deleteCount] at hd
          simp [handlerCleanupCount, handlerEvents, recog_video, reachesInference,
            download_youtube, hf, hu, hw, hr, deleteCount, hd]

/-- C5: the two deletions of delete_file sit in independent failure
boundaries: the remote deletion is always attempted, whatever the local
file state and whether or not the local removal raised; the local removal
is attempted exactly when the file exists, so deleting an already-absent
local file is a no-op; the function is total, so it never raises. -/
theorem delete_file_independent_boundaries (f : CleanupFaults) (s : FsState) :
    (delete_file f s).snd.remoteAttempted = true ∧
    (delete_file f s).snd.localAttempted = s.localExists ∧
    (s.localExists = false →
      (delete_file f s).fst.localExists = false ∧
      (delete_file f s).snd.localFailed = false) := by
  obtain ⟨le, re⟩ := s
  obtain ⟨lr, rr⟩ := f
  cases le <;> cases lr <;> cases rr <;> simp [delete_file]

/-- C9: when the credential environment variable is absent the process
halts at startup and no pipeline code runs; when the model-name variable
is absent the fixed default model name is used. -/
theorem startup_credential_gate (env : String → Option String) (o : Oracle)
    (maxR delay : Nat) :
    (env "GENAI_API_KEY" = none → runApp env o maxR delay = none) ∧
    (env "GENAI_MODEL_NAME" = none → modelNameOf env = defaultModelName) := by
  constructor
  · intro h
    simp [runApp, startupApiKey, h]
  · intro h
    simp [modelNameOf, h]

/-- Witness for C2 at three overloaded attempts out of three. -/
theorem retry_exhaustion_and_success_witness :
    1 ≤ 3 ∧
    (recogLoop (fun _ => GenOutcome.unavailable "503") 2 3 7 3 1).fst
      = Except.error (PErr.runtimeError overloadedMsg) :=
  ⟨by decide,
   ((retry_exhaustion_and_success (fun _ => GenOutcome.unavailable "503") 2 3 7
      (by decide)).1 (fun a => rfl)).1⟩

/-- Witness for C4: one overloaded attempt, then a distinct failure. -/
theorem non_overload_failure_no_retry_witness :
    1 ≤ 2 ∧
    (recogLoop
      (fun j => if j = 2 then GenOutcome.failure "boom"
                else GenOutcome.unavailable "503") 2 5 10 5 1).fst
      = Except.error (PErr.otherError "boom") :=
  ⟨by decide,
   (non_overload_failure_no_retry
      (fun j => if j = 2 then GenOutcome.failure "boom"
                else GenOutcome.unavailable "503") 2 5 10 2 "boom"
      (by decide) (by decide)
      (fun j h1 h2 => by
        have hj : j = 1 := by omega
        subst hj
        rfl)
      rfl).1⟩

/-- Witness for C6: two chunks streamed on the first attempt. -/
theorem streamed_concat_order_witness :
    1 ≤ 1 ∧
    (recogLoop (fun _ => GenOutcome.chunks ["a", "b"]) 2 2 10 2 1).fst
      = Except.ok (String.join ["a", "b"]) :=
  ⟨by decide,
   (streamed_concat_order (fun _ => GenOutcome.chunks ["a", "b"]) 2 2 10 1
      ["a", "b"] (by decide) (by decide)
      (fun j h1 h2 => absurd h2 (by omega)) rfl).1⟩

/-- Witness for C3: the asset becomes ACTIVE at the second poll. -/
theorem activation_polling_spec_witness :
    1 ≤ 1 ∧
    wait_for_file_active (fun j => if j = 0 then 0 else 2) "files/x" 3 1
      = Except.ok { name := "files/x", state := 2 } :=
  ⟨by decide,
   (activation_polling_spec (fun j => if j = 0 then 0 else 2) "files/x" 3 1 1
      (by decide)).1 ⟨by decide, by decide, by decide⟩⟩

/-- Witness for C8 on the all-success run. -/
theorem inference_only_when_active_witness :
    Ev.genAttempt 1 2 ∈ (recog_video okOracle 5 10).snd ∧ 2 = 2 :=
  ⟨by decide, inference_only_when_active okOracle 5 10 1 2 (by decide)⟩

/-- Witness for C10 on the all-success run. -/
theorem no_delete_between_attempts_witness :
    deleteOnlyTerminal (recog_video okOracle 5 10).snd = true ∧
    deleteCount (recog_video okOracle 5 10).snd = 0 :=
  ⟨(no_delete_between_attempts okOracle 5 10).1,
   (no_delete_between_attempts okOracle 5 10).2
     ("videos/a.mp4", { name := "files/x", state := 2 }, "ok") (by rfl)⟩

/-- Witness for the amended C1 on the all-success run. -/
theorem cleanup_once_iff_inference_reached_witness :
    1 ≤ 5 ∧
    handlerCleanupCount okOracle 5 10
      = if reachesInference okOracle then 1 else 0 :=
  ⟨by decide, cleanup_once_iff_inference_reached okOracle 5 10 (by decide)⟩

/-- Witness for C5: absent local file and both deletions raising. -/
theorem delete_file_independent_boundaries_witness :
    (delete_file { localRemoveRaises := true, remoteDeleteRaises := true }
      { localExists := false, remoteExists := true }).snd.remoteAttempted = true ∧
    (delete_file { localRemoveRaises := true, remoteDeleteRaises := true }
      { localExists := false, remoteExists := true }).fst.localExists = false :=
  ⟨(delete_file_independent_boundaries
      { localRemoveRaises := true, remoteDeleteRaises := true }
      { localExists := false, remoteExists := true }).1,
   ((delete_file_independent_boundaries
      { localRemoveRaises := true, remoteDeleteRaises := true }
      { localExists := false, remoteExists := true }).2.2 rfl).1⟩

/-- Witness for C9: an environment with no variables set. -/
theorem startup_credential_gate_witness :
    runApp (fun _ => (none : Option String)) okOracle 5 10 = none ∧
    modelNameOf (fun _ => (none : Option String)) = defaultModelName :=
  ⟨(startup_credential_gate (fun _ => (none : Option String)) okOracle 5 10).1 rfl,
   (startup_credential_gate (fun _ => (none : Option String)) okOracle 5 10).2 rfl⟩

end YoutubeGemini
